import Mathlib

/-!
Verification development for the telegram-trade-copier paper-trading core.

The embedding translates the TypeScript services under `src/src/services/`
into pure Lean functions:

* numbers (`number`) are modelled as `ℚ` (exact arithmetic; the JS engine
  uses IEEE doubles, but every claim is stated in exact arithmetic);
* `Math.random()`-driven quotes and fluctuations are modelled by passing the
  drawn value (respectively the value returned by `getCurrentPrice`) as an
  explicit argument;
* `Date` values are modelled by a day index (`ℕ`, for `toDateString`
  comparisons) and a timestamp (`ℚ`, for millisecond arithmetic);
* `throw` is modelled with `Except`, mutation by explicit state passing;
* JS truthiness on optional numbers (`x && …`, `x || d`) is modelled
  faithfully: `none` and `some 0` are falsy.
-/

namespace TradeCopier

/-! ## Data model (src/src/types/trading.ts) -/

inductive TradeAction
  | BUY
  | SELL
deriving DecidableEq, Repr

inductive TradeStatus
  | opened
  | closed
deriving DecidableEq, Repr

/-- `PaperTrade` from trading.ts.  `symbol` is kept as a string because
`parseSignal` can (via an unchecked cast) put non-symbol strings in the
symbol slot.  Timestamps (`executedAt`, `closedAt`) are ℚ milliseconds. -/
structure PaperTrade where
  id : String
  signalId : String
  symbol : String
  action : TradeAction
  entryPrice : ℚ
  quantity : ℚ
  currentPrice : Option ℚ
  pnl : ℚ
  status : TradeStatus
  executedAt : ℚ
  closedAt : Option ℚ
  stopLoss : Option ℚ
  takeProfit : Option ℚ
  maxDrawdown : Option ℚ
  holdingPeriod : Option ℚ
  returnPercentage : Option ℚ
deriving DecidableEq, Repr

/-- `TradingAccount` from trading.ts, restricted to the fields the core
reads or writes (`id`, `accountName`, `accountType`, `isActive`,
`createdAt` are carried around but never consulted by any claim).
`lastResetDate` is a day index standing for the `toDateString` value. -/
structure TradingAccount where
  balance : ℚ
  maxDailyLoss : Option ℚ
  dailyLossUsed : Option ℚ
  lastResetDate : Option ℕ
deriving DecidableEq, Repr

/-- `RiskSettings` from trading.ts. -/
structure RiskSettings where
  maxDailyLoss : ℚ
  maxPositionSize : ℚ
  stopLossPercentage : ℚ
  takeProfitPercentage : ℚ
  maxOpenPositions : ℕ
  riskPerTrade : ℚ
  enableAutoStopLoss : Bool
  enableAutoTakeProfit : Bool
  enableDailyLossLimit : Bool
deriving DecidableEq, Repr

/-- `MarketPrice` from trading.ts; the indicator fields (`rsi`,
`volatility`, `volume24h`) and `lastUpdated` are overwritten with fresh
random draws on every tick and read by no claim, so they are omitted. -/
structure MarketPrice where
  symbol : String
  price : ℚ
  change24h : ℚ
deriving DecidableEq, Repr

/-- `TradingSignal` from trading.ts, restricted to the fields the engine
reads (`status`, `parsedAt` and the optional AI/risk annotations are never
consulted by `executeSignal` or the risk manager). -/
structure TradingSignal where
  id : String
  channelId : String
  symbol : String
  action : TradeAction
  price : ℚ
  quantity : ℚ
  signalText : String
deriving DecidableEq, Repr

/-- JS `opt || d` on an optional number: `undefined` and `0` fall back. -/
def jsOrQ (o : Option ℚ) (d : ℚ) : ℚ :=
  match o with
  | some v => if v = 0 then d else v
  | none => d

/-- JS truthiness of an optional number (`undefined` and `0` are falsy). -/
def optTruthy (o : Option ℚ) : Bool :=
  match o with
  | some v => decide (v ≠ 0)
  | none => false

/-- Default value of an optional number (only read under `optTruthy`). -/
def optValD (o : Option ℚ) : ℚ := o.getD 0

/-! ## Risk manager (src/src/services/riskManagementService.ts) -/

/-- The shipped default `riskSettings` (riskManagementService.ts lines 5-15). -/
def defaultRiskSettings : RiskSettings :=
  { maxDailyLoss := 2000
    maxPositionSize := 5000
    stopLossPercentage := 2
    takeProfitPercentage := 4
    maxOpenPositions := 5
    riskPerTrade := 25
    enableAutoStopLoss := true
    enableAutoTakeProfit := true
    enableDailyLossLimit := true }

/-- The distinct risk-rejection reasons produced by
`validateSignalExecution` (the source formats them as interpolated
strings; only their identity matters to the claims). -/
inductive RejectReason
  | dailyLossLimit
  | maxOpenPositionsReached
  | positionTooLarge
  | insufficientBalance
deriving DecidableEq, Repr

inductive ValidationResult
  | reject (reason : RejectReason)
  | allow (adjustedQuantity : Option ℚ)
deriving DecidableEq, Repr

/-- `checkDailyLossLimit` (riskManagementService.ts lines 147-168).
Returns `canTrade` together with the (possibly day-rolled) account. -/
def checkDailyLossLimit (rs : RiskSettings) (acct : TradingAccount) (today : ℕ) :
    Bool × TradingAccount :=
  let acct1 := if acct.lastResetDate = some today then acct
    else { acct with dailyLossUsed := some 0, lastResetDate := some today }
  let dailyLossUsed := jsOrQ acct1.dailyLossUsed 0
  let maxDL := jsOrQ acct1.maxDailyLoss rs.maxDailyLoss
  if maxDL ≤ dailyLossUsed then (false, acct1) else (true, acct1)

/-- Position-size / balance part of `validateSignalExecution`
(riskManagementService.ts lines 46-78), reached after the daily-loss and
max-open-positions gates. -/
def validatePosition (rs : RiskSettings) (sig : TradingSignal)
    (acct : TradingAccount) : ValidationResult × TradingAccount :=
  let positionValue := sig.price * sig.quantity
  let maxPositionValue := min rs.maxPositionSize (acct.balance * (rs.riskPerTrade / 100))
  if maxPositionValue < positionValue then
    let adjustedQuantity := ((⌊maxPositionValue / sig.price * 100⌋ : ℤ) : ℚ) / 100
    if adjustedQuantity ≤ 0 then (.reject .positionTooLarge, acct)
    else (.allow (some adjustedQuantity), acct)
  else if sig.action = .BUY ∧ acct.balance < positionValue then
    (.reject .insufficientBalance, acct)
  else (.allow none, acct)

/-- `validateSignalExecution` (riskManagementService.ts lines 25-79):
daily-loss gate (when enabled), then max-open-positions, then the
position-size cap / balance checks.  The account is returned because the
daily-loss gate can mutate its reset fields. -/
def validateSignalExecution (rs : RiskSettings) (sig : TradingSignal)
    (acct : TradingAccount) (openTrades : List PaperTrade) (today : ℕ) :
    ValidationResult × TradingAccount :=
  let step1 : ValidationResult × TradingAccount → ValidationResult × TradingAccount :=
    fun p =>
      match p with
      | (.reject r, a) => (.reject r, a)
      | (.allow _, a) =>
        if rs.maxOpenPositions ≤ openTrades.length then
          (.reject .maxOpenPositionsReached, a)
        else validatePosition rs sig a
  if rs.enableDailyLossLimit then
    match checkDailyLossLimit rs acct today with
    | (false, acct1) => (.reject .dailyLossLimit, acct1)
    | (true, acct1) => step1 (.allow none, acct1)
  else step1 (.allow none, acct)

/-- `calculateRiskLevels` (riskManagementService.ts lines 82-98). -/
def calculateRiskLevels (rs : RiskSettings) (sig : TradingSignal) : ℚ × ℚ :=
  let slm := rs.stopLossPercentage / 100
  let tpm := rs.takeProfitPercentage / 100
  if sig.action = .BUY then
    (sig.price * (1 - slm), sig.price * (1 + tpm))
  else
    (sig.price * (1 + slm), sig.price * (1 - tpm))

/-- `checkStopLossAndTakeProfit` (riskManagementService.ts lines 101-128);
only the `shouldClose` flag is modelled (the `reason` is an interpolated
display string read by no claim).  `trade.stopLoss && …` is JS truthiness:
an absent or zero level does not participate. -/
def checkStopLossAndTakeProfit (t : PaperTrade) (currentPrice : ℚ) : Bool :=
  if !optTruthy t.stopLoss && !optTruthy t.takeProfit then false
  else if t.action = .BUY then
    if optTruthy t.stopLoss && decide (currentPrice ≤ optValD t.stopLoss) then true
    else if optTruthy t.takeProfit && decide (optValD t.takeProfit ≤ currentPrice) then true
    else false
  else
    if optTruthy t.stopLoss && decide (optValD t.stopLoss ≤ currentPrice) then true
    else if optTruthy t.takeProfit && decide (currentPrice ≤ optValD t.takeProfit) then true
    else false

/-- `updateDailyLoss` (riskManagementService.ts lines 171-184). -/
def updateDailyLoss (acct : TradingAccount) (lossAmount : ℚ) (today : ℕ) :
    TradingAccount :=
  if 0 < lossAmount then acct
  else
    let acct1 := if acct.lastResetDate = some today then acct
      else { acct with dailyLossUsed := some 0, lastResetDate := some today }
    { acct1 with dailyLossUsed := some (jsOrQ acct1.dailyLossUsed 0 + |lossAmount|) }

/-! ## Paper trading engine (src/src/services/paperTradingService.ts) -/

structure EngineState where
  trades : List PaperTrade
  account : TradingAccount
  marketPrices : List MarketPrice
deriving DecidableEq, Repr

/-- Initial account (paperTradingService.ts lines 7-14). -/
def initialAccount : TradingAccount :=
  { balance := 10000, maxDailyLoss := none, dailyLossUsed := none, lastResetDate := none }

/-- Initial mock market prices (paperTradingService.ts lines 17-30). -/
def initialMarketPrices : List MarketPrice :=
  [ { symbol := "BTC", price := 45000, change24h := 2.5 },
    { symbol := "GOLD", price := 2000, change24h := -0.8 } ]

def initialEngineState : EngineState :=
  { trades := [], account := initialAccount, marketPrices := initialMarketPrices }

inductive ExecError
  | riskRejected (r : RejectReason)
  | insufficientBalanceForTrade
deriving DecidableEq, Repr

def getOpenTrades (st : EngineState) : List PaperTrade :=
  st.trades.filter (fun t => decide (t.status = .opened))

def getClosedTrades (st : EngineState) : List PaperTrade :=
  st.trades.filter (fun t => decide (t.status = .closed))

/-- `getTrades` returns `[...this.trades]`: a fresh array whose elements
are the same trade objects; as a pure value this is the list itself. -/
def getTrades (st : EngineState) : List PaperTrade := st.trades

/-- `getAccount` returns `{ ...this.account }`: a field copy. -/
def getAccount (st : EngineState) : TradingAccount := st.account

def getMarketPrices (st : EngineState) : List MarketPrice := st.marketPrices

/-- The pnl stored by `updateTradePnL` (paperTradingService.ts lines
123-131).  `if (!trade.currentPrice) return;` — a missing or zero current
price leaves the stored pnl untouched. -/
def updatedPnl (t : PaperTrade) : ℚ :=
  match t.currentPrice with
  | none => t.pnl
  | some cp =>
    if cp = 0 then t.pnl
    else if t.action = .BUY then (cp - t.entryPrice) * t.quantity
    else (t.entryPrice - cp) * t.quantity

/-- `updateTradePnL` (paperTradingService.ts lines 123-131): only the
`pnl` field is (possibly) written. -/
def updateTradePnL (t : PaperTrade) : PaperTrade :=
  { t with pnl := updatedPnl t }

/-- `executeSignal` (paperTradingService.ts lines 39-97).  `quote` is the
value returned by the `getCurrentPrice` call (a random perturbation of the
table price in the source), `newId` the generated trade id, `now` the
execution timestamp, `today` the current day index. -/
def executeSignal (rs : RiskSettings) (st : EngineState) (sig : TradingSignal)
    (today : ℕ) (quote : ℚ) (newId : String) (now : ℚ) :
    Except ExecError PaperTrade × EngineState :=
  match validateSignalExecution rs sig st.account (getOpenTrades st) today with
  | (.reject r, acct1) => (.error (.riskRejected r), { st with account := acct1 })
  | (.allow adj, acct1) =>
    let adjustedQuantity := jsOrQ adj sig.quantity
    let tradeValue := sig.price * adjustedQuantity
    if sig.action = .BUY ∧ acct1.balance < tradeValue then
      (.error .insufficientBalanceForTrade, { st with account := acct1 })
    else
      let trade := updateTradePnL
        { id := newId, signalId := sig.id, symbol := sig.symbol, action := sig.action,
          entryPrice := sig.price, quantity := adjustedQuantity,
          currentPrice := some quote, pnl := 0, status := .opened,
          executedAt := now, closedAt := none,
          stopLoss := some (calculateRiskLevels rs sig).1,
          takeProfit := some (calculateRiskLevels rs sig).2,
          maxDrawdown := some 0, holdingPeriod := some 0, returnPercentage := some 0 }
      let acct2 := { acct1 with balance :=
        if sig.action = .BUY then acct1.balance - tradeValue else acct1.balance + tradeValue }
      (.ok trade, { st with account := acct2, trades := st.trades ++ [trade] })

/-- Replace the first list entry satisfying `p` (the source mutates the
single object found by `Array.prototype.find`). -/
def replaceFirst {α : Type} (p : α → Bool) (x : α) : List α → List α
  | [] => []
  | a :: as => if p a then x :: as else a :: replaceFirst p x as

/-- `closeTrade` (paperTradingService.ts lines 99-121); `quote` is the
value returned by its `getCurrentPrice` call, `now` the close timestamp. -/
def closeTrade (st : EngineState) (tradeId : String) (quote : ℚ) (now : ℚ) :
    Except String PaperTrade × EngineState :=
  match st.trades.find? (fun t => decide (t.id = tradeId)) with
  | none => (.error "Trade not found or already closed", st)
  | some t =>
    if t.status = .closed then (.error "Trade not found or already closed", st)
    else
      let closeValue := quote * t.quantity
      let t1 := updateTradePnL
        { t with status := .closed, closedAt := some now, currentPrice := some quote }
      let acct1 := { st.account with balance :=
        if t.action = .BUY then st.account.balance + closeValue
        else st.account.balance - closeValue }
      let trades1 := replaceFirst (fun u => decide (u.id = tradeId)) t1 st.trades
      (.ok t1, { st with account := acct1, trades := trades1 })

/-- One iteration of the open-trade pass of `updateMarketPrices`
(paperTradingService.ts lines 157-181) on the trade at list index `i`:
re-quote at `q1`, recompute pnl / holding period / return percentage, then
auto-close (settling at the separately drawn quote `q2`) when
`checkStopLossAndTakeProfit` fires; a failed nested close is swallowed. -/
def tickedTrade (now q1 : ℚ) (t : PaperTrade) : PaperTrade :=
  let t1 := updateTradePnL { t with currentPrice := some q1 }
  { t1 with
    holdingPeriod := some ((now - t1.executedAt) / 60000),
    returnPercentage := some (t1.pnl / (t1.entryPrice * t1.quantity) * 100) }

def tickTrade (now : ℚ) (q1 q2 : ℚ) (i : ℕ) (st : EngineState) : EngineState :=
  match st.trades[i]? with
  | none => st
  | some t =>
    let t2 := tickedTrade now q1 t
    let st1 := { st with trades := st.trades.set i t2 }
    if checkStopLossAndTakeProfit t2 q1 then (closeTrade st1 t2.id q2 now).2
    else st1

/-- `updateMarketPrices` (paperTradingService.ts lines 142-182): every
table price moves by its drawn fluctuation `mpF i`; then every trade that
was open at the start of the pass is ticked, the `k`-th one with quote
draws `tq k` (trigger quote, nested-close settlement quote).  The mutated
indicator fields are omitted from `MarketPrice` (read by no claim). -/
def updateMarketPrices (st : EngineState) (mpF : ℕ → ℚ) (tq : ℕ → ℚ × ℚ)
    (now : ℚ) : EngineState :=
  let prices1 := st.marketPrices.mapIdx (fun i p => { p with price := p.price * (1 + mpF i) })
  let st1 := { st with marketPrices := prices1 }
  let openIdx := (List.range st1.trades.length).filter (fun i =>
    match st1.trades[i]? with
    | some t => decide (t.status = .opened)
    | none => false)
  openIdx.enum.foldl (fun s ki => tickTrade now (tq ki.1).1 (tq ki.1).2 ki.2 s) st1

/-- `getTotalPnL` (paperTradingService.ts lines 204-206). -/
def getTotalPnL (st : EngineState) : ℚ :=
  st.trades.foldl (fun total t => total + t.pnl) 0

/-- `getWinRate` (paperTradingService.ts lines 208-214). -/
def getWinRate (st : EngineState) : ℚ :=
  let closedTrades := getClosedTrades st
  if closedTrades.length = 0 then 0
  else ((closedTrades.filter (fun t => decide (0 < t.pnl))).length : ℚ)
        / (closedTrades.length : ℚ) * 100

/-! ## Signal parser (src/src/services/telegramService.ts)

`parseSignal` tries three regex patterns in order; the first one matching
anywhere in the text supplies the capture groups.  The patterns are
embedded as deterministic matchers over `List Char` (the alternations and
greedy optional pieces of these particular regexes never require
backtracking across a choice: every alternative set is prefix-disjoint and
every optional token is disjoint from what may legally follow it); the
lazy `.*?` of pattern 2 is the usual shortest-first scan that cannot cross
a line terminator.  Case-insensitivity (`/i`) is `Char.toLower` on both
sides (the patterns are ASCII). -/

/-- A parsed signal as produced by `parseSignal` (telegramService.ts lines
98-109); the generated `id`, `parsedAt` timestamp and the constant
`pending` status are omitted. -/
structure ParsedSignal where
  channelId : String
  symbol : String
  action : TradeAction
  price : ℚ
  quantity : ℚ
  signalText : String
deriving DecidableEq, Repr

/-- JS `\s` on the ASCII range. -/
def isWsChar (c : Char) : Bool :=
  c == ' ' || c == '\t' || c == '\n' || c == '\r' ||
  c == Char.ofNat 11 || c == Char.ofNat 12

/-- Case-insensitive literal match; returns the rest of the input. -/
def matchLitCI : List Char → List Char → Option (List Char)
  | [], rest => some rest
  | _ :: _, [] => none
  | p :: ps, c :: cs => if p.toLower == c.toLower then matchLitCI ps cs else none

/-- `\s*` (greedy). -/
def dropWs (cs : List Char) : List Char := cs.dropWhile isWsChar

/-- `\s+` (greedy). -/
def ws1 : List Char → Option (List Char)
  | [] => none
  | c :: cs => if isWsChar c then some (dropWs cs) else none

/-- `x?` for a single literal character. -/
def optChar (ch : Char) (cs : List Char) : List Char :=
  match cs with
  | c :: rest => if c == ch then rest else cs
  | [] => cs

/-- `(BTC|GOLD)` with the capture already upper-cased (the caller applies
`toUpperCase` to the matched text). -/
def symAlt (cs : List Char) : Option (String × List Char) :=
  match matchLitCI "BTC".toList cs with
  | some rest => some ("BTC", rest)
  | none =>
    match matchLitCI "GOLD".toList cs with
    | some rest => some ("GOLD", rest)
    | none => none

/-- `(BUY|SELL)` with the capture upper-cased. -/
def actAlt (cs : List Char) : Option (String × List Char) :=
  match matchLitCI "BUY".toList cs with
  | some rest => some ("BUY", rest)
  | none =>
    match matchLitCI "SELL".toList cs with
    | some rest => some ("SELL", rest)
    | none => none

/-- `(?:Long|Short|Buy|Sell)`. -/
def dirWordAlt (cs : List Char) : Option (List Char) :=
  match matchLitCI "Long".toList cs with
  | some r => some r
  | none =>
    match matchLitCI "Short".toList cs with
    | some r => some r
    | none =>
      match matchLitCI "Buy".toList cs with
      | some r => some r
      | none => matchLitCI "Sell".toList cs

/-- `(\d+(?:\.\d+)?)`: the captured characters and the rest. -/
def numTok (cs : List Char) : Option (List Char × List Char) :=
  let ds := cs.takeWhile Char.isDigit
  let rest := cs.dropWhile Char.isDigit
  if ds.isEmpty then none
  else
    match rest with
    | '.' :: rest2 =>
      let ds2 := rest2.takeWhile Char.isDigit
      let rest3 := rest2.dropWhile Char.isDigit
      if ds2.isEmpty then some (ds, rest) else some (ds ++ '.' :: ds2, rest3)
    | _ => some (ds, rest)

/-- Pattern 1 at the current position:
`(?:BUY|SELL)\s+(BTC|GOLD)\s+@?\s*\$?(\d+(?:\.\d+)?)` — returns
(symbol capture, price capture). -/
def pat1At (cs : List Char) : Option (String × List Char) := do
  let r1 ←
    match matchLitCI "BUY".toList cs with
    | some r => some r
    | none => matchLitCI "SELL".toList cs
  let r2 ← ws1 r1
  let (sym, r3) ← symAlt r2
  let r4 ← ws1 r3
  let r5 := optChar '@' r4
  let r6 := dropWs r5
  let r7 := optChar '$' r6
  let (price, _) ← numTok r7
  pure (sym, price)

/-- `(?:🚀|📈|📉)?`. -/
def emojiOpt (cs : List Char) : List Char :=
  match cs with
  | c :: rest => if c == '🚀' || c == '📈' || c == '📉' then rest else cs
  | [] => cs

/-- `[$]?(\d+(?:\.\d+)?)`. -/
def tailNum (cs : List Char) : Option (List Char) :=
  (numTok (optChar '$' cs)).map (fun p => p.1)

/-- `(?:Entry:?\s*)?[$]?(\d+(?:\.\d+)?)` (the optional group is tried
greedily first, falling back to skipping it). -/
def entryTail (cs : List Char) : Option (List Char) :=
  match (do
    let r1 ← matchLitCI "Entry".toList cs
    let r2 := optChar ':' r1
    let r3 := dropWs r2
    tailNum r3 : Option (List Char)) with
  | some p => some p
  | none => tailNum cs

/-- `.*?(?:Entry:?\s*)?[$]?(\d+(?:\.\d+)?)`: shortest-first scan for the
tail; `.` does not match a line terminator. -/
def lazyScanNum : List Char → Option (List Char)
  | [] => entryTail []
  | c :: rest =>
    match entryTail (c :: rest) with
    | some p => some p
    | none => if c == '\n' || c == '\r' then none else lazyScanNum rest

/-- Pattern 2 at the current position:
`(?:🚀|📈|📉)?\s*(BTC|GOLD)\s+(?:Long|Short|Buy|Sell).*?(?:Entry:?\s*)?[$]?(\d+(?:\.\d+)?)`. -/
def pat2At (cs : List Char) : Option (String × List Char) := do
  let r1 := emojiOpt cs
  let r2 := dropWs r1
  let (sym, r3) ← symAlt r2
  let r4 ← ws1 r3
  let r5 ← dirWordAlt r4
  let price ← lazyScanNum r5
  pure (sym, price)

/-- Pattern 3 at the current position:
`Signal:?\s*(BUY|SELL)\s+(BTC|GOLD)\s+(\d+(?:\.\d+)?)` — returns
(action capture, symbol capture, price capture). -/
def pat3At (cs : List Char) : Option (String × String × List Char) := do
  let r1 ← matchLitCI "Signal".toList cs
  let r2 := optChar ':' r1
  let r3 := dropWs r2
  let (act, r4) ← actAlt r3
  let r5 ← ws1 r4
  let (sym, r6) ← symAlt r5
  let r7 ← ws1 r6
  let (price, _) ← numTok r7
  pure (act, sym, price)

/-- Leftmost match: try the pattern at every start position. -/
def scanFor {α : Type} (f : List Char → Option α) : List Char → Option α
  | [] => f []
  | c :: cs =>
    match f (c :: cs) with
    | some r => some r
    | none => scanFor f cs

def digitsToNat (ds : List Char) : ℕ :=
  ds.foldl (fun a c => a * 10 + (c.toNat - '0'.toNat)) 0

/-- JS `parseFloat` on the strings this code feeds it (a decimal numeral
prefix, or no numeral at all; the captures never carry exponents);
`none` stands for `NaN`. -/
def parseFloatJS (cs0 : List Char) : Option ℚ :=
  let cs := dropWs cs0
  let sp : Bool × List Char :=
    match cs with
    | '-' :: r => (true, r)
    | '+' :: r => (false, r)
    | _ => (false, cs)
  let ip := sp.2.takeWhile Char.isDigit
  let rest := sp.2.dropWhile Char.isDigit
  match rest with
  | '.' :: r2 =>
    let fp := r2.takeWhile Char.isDigit
    if ip.isEmpty && fp.isEmpty then none
    else
      let mag : ℚ := (digitsToNat ip : ℚ) + (digitsToNat fp : ℚ) / (10 : ℚ) ^ fp.length
      some (if sp.1 then -mag else mag)
  | _ =>
    if ip.isEmpty then none
    else some (if sp.1 then -(digitsToNat ip : ℚ) else (digitsToNat ip : ℚ))

/-- Substring containment (JS `String.prototype.includes`). -/
def isPrefixL : List Char → List Char → Bool
  | [], _ => true
  | _ :: _, [] => false
  | a :: as, b :: bs => a == b && isPrefixL as bs

def containsSub (needle : List Char) : List Char → Bool
  | [] => isPrefixL needle []
  | c :: cs => isPrefixL needle (c :: cs) || containsSub needle cs

def buyKeywords : List String := ["buy", "long", "bullish", "🚀", "📈"]

def sellKeywords : List String := ["sell", "short", "bearish", "📉", "🔻"]

def lowerOf (text : String) : List Char := text.toList.map Char.toLower

/-- `determineAction` (telegramService.ts lines 117-131): bullish keywords
are checked first and win over any bearish vocabulary. -/
def determineAction (text : String) : Option TradeAction :=
  if buyKeywords.any (fun k => containsSub k.toList (lowerOf text)) then some .BUY
  else if sellKeywords.any (fun k => containsSub k.toList (lowerOf text)) then some .SELL
  else none

/-- `calculateQuantity` (telegramService.ts lines 133-140). -/
def calculateQuantity (symbol : String) (_price : ℚ) : ℚ :=
  if symbol = "BTC" then (1 : ℚ) / 100 else 1

/-- The body of the per-pattern `if (match) { … }` block of `parseSignal`
(telegramService.ts lines 93-111): `symbolStr` is `match[1]` upper-cased,
`priceOpt` is `parseFloat(match[2] || match[3])`; all three of action,
symbol and price must be truthy. -/
def buildSignal (text channelId symbolStr : String) (priceOpt : Option ℚ) :
    Option ParsedSignal :=
  match determineAction text, priceOpt with
  | some act, some p =>
    if p ≠ 0 ∧ symbolStr ≠ "" then
      some { channelId := channelId, symbol := symbolStr, action := act, price := p,
             quantity := calculateQuantity symbolStr p, signalText := text }
    else none
  | _, _ => none

/-- `parseSignal` (telegramService.ts lines 81-115).  For pattern 3 the
symbol slot receives the `(BUY|SELL)` capture and `parseFloat` is applied
to the `(BTC|GOLD)` capture (`match[2] || match[3]` picks the truthy
symbol string), yielding `NaN`, so that arm can never produce a signal —
exactly as in the source. -/
def parseSignal (messageText channelId : String) : Option ParsedSignal :=
  let cs := messageText.toList
  match
    (match scanFor pat1At cs with
     | some (sym, priceCs) => buildSignal messageText channelId sym (parseFloatJS priceCs)
     | none => none) with
  | some s => some s
  | none =>
    match
      (match scanFor pat2At cs with
       | some (sym, priceCs) => buildSignal messageText channelId sym (parseFloatJS priceCs)
       | none => none) with
    | some s => some s
    | none =>
      match scanFor pat3At cs with
      | some (act, sym, _priceCs) =>
        buildSignal messageText channelId act (parseFloatJS sym.toList)
      | none => none

/-! ## Reference model for the query surface (C8)

`getTrades`/`getMarketPrices` return `[...array]` and `getAccount` returns
`{ ...account }`: the containers are fresh, but the array elements are the
same objects the engine holds.  To state aliasing claims we model object
identity explicitly: trade objects live in a store indexed by `ℕ`, the
engine's internal array is a list of indices, and the account is a record
of primitives (so its spread copy is a plain value). -/

structure HeapState where
  tradeObjs : List PaperTrade
  engineTrades : List ℕ
  account : TradingAccount
deriving DecidableEq, Repr

/-- `getTrades()` = `[...this.trades]`: a fresh array containing the same
object references. -/
def getTradesShallowCopy (s : HeapState) : List ℕ := s.engineTrades

/-- `getAccount()` = `{ ...this.account }`: a field copy, sharing nothing. -/
def getAccountCopy (s : HeapState) : TradingAccount := s.account

/-- A caller writing the `pnl` field of a trade object it obtained from a
query result (e.g. `getTrades()[k].pnl = v`). -/
def callerWritePnl (s : HeapState) (r : ℕ) (v : ℚ) : HeapState :=
  match s.tradeObjs[r]? with
  | none => s
  | some t => { s with tradeObjs := s.tradeObjs.set r { t with pnl := v } }

/-- The engine's internal view of its trade list (each reference
dereferenced in the store). -/
def engineTradeView (s : HeapState) : List (Option PaperTrade) :=
  s.engineTrades.map (fun r => s.tradeObjs[r]?)

/-! ## Concrete scenario inputs shared by the claim theorems -/

/-- The spec's example signal: BUY BTC at 44500, quantity 0.1. -/
def buyBtcSignal : TradingSignal :=
  { id := "sig1", channelId := "chan", symbol := "BTC", action := .BUY,
    price := 44500, quantity := 1/10, signalText := "BUY BTC @ $44500" }

/-- An account for day 0 with nothing charged against the daily limit. -/
def freshAccount : TradingAccount :=
  { balance := 10000, maxDailyLoss := none, dailyLossUsed := some 0,
    lastResetDate := some 0 }

/-- An account that has already exhausted the default 2000 daily loss. -/
def dailyLossAccount : TradingAccount :=
  { balance := 10000, maxDailyLoss := none, dailyLossUsed := some 2000,
    lastResetDate := some 0 }

def rejState : EngineState :=
  { trades := [], account := dailyLossAccount, marketPrices := initialMarketPrices }

/-- C1 scenario, step 1: execute the example signal from the initial
engine state (the `getCurrentPrice` draw at execution is 45000). -/
def c1Open : Except ExecError PaperTrade × EngineState :=
  executeSignal defaultRiskSettings initialEngineState buyBtcSignal 0 45000 "T1" 0

/-- C1 scenario, step 2: a refresh tick whose open-trade quote is 46000. -/
def c1Tick : EngineState :=
  updateMarketPrices c1Open.2 (fun _ => 0) (fun _ => (46000, 46000)) 60000

/-- C1 scenario, step 3: close the trade at quoted price 46000. -/
def c1Close : Except String PaperTrade × EngineState :=
  closeTrade c1Tick "T1" 46000 120000

/-- C5 failing input: an open BUY trade (entry 44500, quantity 0.05) whose
stop-loss of 43610 the next tick will hit at a loss. -/
def losingTrade : PaperTrade :=
  { id := "T1", signalId := "sig1", symbol := "BTC", action := .BUY,
    entryPrice := 44500, quantity := 1/20, currentPrice := some 44500, pnl := 0,
    status := .opened, executedAt := 0, closedAt := none,
    stopLoss := some 43610, takeProfit := some 46280, maxDrawdown := some 0,
    holdingPeriod := some 0, returnPercentage := some 0 }

def losingTradeState : EngineState :=
  { trades := [losingTrade],
    account := { balance := 7775, maxDailyLoss := none, dailyLossUsed := some 500,
                 lastResetDate := some 0 },
    marketPrices := initialMarketPrices }

/-- C5 failing input: the refresh pass that quotes 43000 (below the
stop-loss) and therefore auto-closes `losingTrade` at a 75 loss. -/
def c5Tick : EngineState :=
  updateMarketPrices losingTradeState (fun _ => 0) (fun _ => (43000, 43000)) 60000

/-- C9 input: a small BUY BTC signal (notional 445, far below every cap). -/
def smallBuySignal : TradingSignal :=
  { id := "sig9", channelId := "chan", symbol := "BTC", action := .BUY,
    price := 44500, quantity := 1/100, signalText := "buy btc" }

def c9First : Except ExecError PaperTrade × EngineState :=
  executeSignal defaultRiskSettings initialEngineState smallBuySignal 0 45000 "T1" 0

def c9Second : Except ExecError PaperTrade × EngineState :=
  executeSignal defaultRiskSettings c9First.2 smallBuySignal 0 45000 "T2" 0

/-- The trade created by the first C9 execution. -/
def c9t1 : PaperTrade :=
  { id := "T1", signalId := "sig9", symbol := "BTC", action := .BUY,
    entryPrice := 44500, quantity := 1/100, currentPrice := some 45000, pnl := 5,
    status := .opened, executedAt := 0, closedAt := none,
    stopLoss := some 43610, takeProfit := some 46280, maxDrawdown := some 0,
    holdingPeriod := some 0, returnPercentage := some 0 }

/-- The duplicate trade created by the second C9 execution. -/
def c9t2 : PaperTrade := { c9t1 with id := "T2" }

/-- C3 witness input: BUY 1 unit at 100 from the initial state. -/
def c3Sig : TradingSignal :=
  { id := "s3", channelId := "chan", symbol := "BTC", action := .BUY,
    price := 100, quantity := 1, signalText := "buy btc" }

def c3Open : Except ExecError PaperTrade × EngineState :=
  executeSignal defaultRiskSettings initialEngineState c3Sig 0 100 "T3" 0

/-- The trade created by `c3Open`. -/
def c3t : PaperTrade :=
  { id := "T3", signalId := "s3", symbol := "BTC", action := .BUY,
    entryPrice := 100, quantity := 1, currentPrice := some 100, pnl := 0,
    status := .opened, executedAt := 0, closedAt := none,
    stopLoss := some 98, takeProfit := some 104, maxDrawdown := some 0,
    holdingPeriod := some 0, returnPercentage := some 0 }

def c3Close : Except String PaperTrade × EngineState :=
  closeTrade c3Open.2 "T3" 110 7

/-- The closed trade returned by `c3Close`. -/
def c3tc : PaperTrade :=
  { c3t with currentPrice := some 110, pnl := 10, status := .closed, closedAt := some 7 }

/-- C6 witness input: an open BUY trade carrying only a stop-loss at 98. -/
def c6Trade : PaperTrade :=
  { id := "T6", signalId := "s6", symbol := "BTC", action := .BUY,
    entryPrice := 100, quantity := 1, currentPrice := some 100, pnl := 0,
    status := .opened, executedAt := 0, closedAt := none,
    stopLoss := some 98, takeProfit := none, maxDrawdown := none,
    holdingPeriod := none, returnPercentage := none }

def c6State : EngineState :=
  { trades := [c6Trade], account := initialAccount, marketPrices := initialMarketPrices }

/-- C8 witness input: a heap with one trade object, referenced by the
engine's internal array. -/
def heapExample : HeapState :=
  { tradeObjs := [c6Trade], engineTrades := [0], account := initialAccount }

/-! Intermediate states of the concrete scenarios, written out as literals
(each is proved equal to the corresponding computation). -/

/-- The trade `c1Open` creates: quantity scaled down to 0.05. -/
def c1t1 : PaperTrade :=
  { id := "T1", signalId := "sig1", symbol := "BTC", action := .BUY,
    entryPrice := 44500, quantity := 1/20, currentPrice := some 45000, pnl := 25,
    status := .opened, closedAt := none, executedAt := 0,
    stopLoss := some 43610, takeProfit := some 46280, maxDrawdown := some 0,
    holdingPeriod := some 0, returnPercentage := some 0 }

def c1st1 : EngineState :=
  { trades := [c1t1],
    account := { balance := 7775, maxDailyLoss := none, dailyLossUsed := some 0,
                 lastResetDate := some 0 },
    marketPrices := initialMarketPrices }

/-- `c1t1` after the 46000 tick: pnl 75, still open. -/
def c1t2 : PaperTrade :=
  { c1t1 with currentPrice := some 46000, pnl := 75, holdingPeriod := some 1,
              returnPercentage := some (75 / 2225 * 100) }

def c1st2 : EngineState := { c1st1 with trades := [c1t2] }

/-- `c1t2` after closing at 46000. -/
def c1t3 : PaperTrade := { c1t2 with status := .closed, closedAt := some 120000 }

def c1st3 : EngineState :=
  { c1st1 with trades := [c1t3],
               account := { balance := 10075, maxDailyLoss := none,
                            dailyLossUsed := some 0, lastResetDate := some 0 } }

/-- `losingTrade` after the 43000 tick auto-closed it: pnl −75. -/
def c5Closed : PaperTrade :=
  { losingTrade with currentPrice := some 43000, pnl := -75, holdingPeriod := some 1,
                     returnPercentage := some (-75 / 2225 * 100),
                     status := .closed, closedAt := some 60000 }

def c5After : EngineState :=
  { losingTradeState with
      trades := [c5Closed],
      account := { balance := 9925, maxDailyLoss := none, dailyLossUsed := some 500,
                   lastResetDate := some 0 } }

/-- State after the first C9 execution. -/
def c9st1 : EngineState :=
  { trades := [c9t1],
    account := { balance := 9555, maxDailyLoss := none, dailyLossUsed := some 0,
                 lastResetDate := some 0 },
    marketPrices := initialMarketPrices }

/-- State after the duplicate C9 execution: a second trade for the same
signal id, and the balance debited again. -/
def c9st2 : EngineState :=
  { c9st1 with trades := [c9t1, c9t2],
               account := { balance := 9110, maxDailyLoss := none,
                            dailyLossUsed := some 0, lastResetDate := some 0 } }

/-- State after `c3Open`. -/
def c3st1 : EngineState :=
  { trades := [c3t],
    account := { balance := 9900, maxDailyLoss := none, dailyLossUsed := some 0,
                 lastResetDate := some 0 },
    marketPrices := initialMarketPrices }

/-- State after `c3Close`. -/
def c3st2 : EngineState :=
  { c3st1 with trades := [c3tc],
               account := { balance := 10010, maxDailyLoss := none,
                            dailyLossUsed := some 0, lastResetDate := some 0 } }

end TradeCopier

deriving instance DecidableEq for Except

/-! ## Theorems -/

namespace TradeCopier

/-- Floor value used by the 44500-price scenarios:
`Math.floor(2500 / 44500 * 100) = 5`. -/
lemma floor_cap_btc : ((⌊(2500:ℚ) / 44500 * 100⌋ : ℤ) : ℚ) = 5 := by
  norm_num [Int.floor_eq_iff]

/-- Evaluation of C1 step 1. -/
lemma c1Open_eq : c1Open = (Except.ok c1t1, c1st1) := by
  simp [c1Open, executeSignal, validateSignalExecution, checkDailyLossLimit, jsOrQ,
    validatePosition, getOpenTrades, initialEngineState, initialAccount,
    defaultRiskSettings, buyBtcSignal, calculateRiskLevels, updateTradePnL, updatedPnl,
    floor_cap_btc, c1t1, c1st1]
  norm_num [floor_cap_btc]

/-- Evaluation of C1 step 2. -/
lemma c1Tick_eq : c1Tick = c1st2 := by
  have h : c1Open.2 = c1st1 := by rw [c1Open_eq]
  simp [c1Tick, h, updateMarketPrices, tickTrade, tickedTrade, checkStopLossAndTakeProfit,
    optTruthy, optValD, updateTradePnL, updatedPnl, c1st1, c1t1, c1st2, c1t2,
    List.enum, List.enumFrom, initialMarketPrices, closeTrade, replaceFirst]
  norm_num

/-- Evaluation of C1 step 3. -/
lemma c1Close_eq : c1Close = (Except.ok c1t3, c1st3) := by
  have h : c1Tick = c1st2 := c1Tick_eq
  simp [c1Close, h, closeTrade, replaceFirst, updateTradePnL, updatedPnl,
    c1st2, c1t2, c1t1, c1st1, c1t3, c1st3, initialMarketPrices]
  norm_num

end TradeCopier

namespace TradeCopier

/-- Evaluation of the C5 failing refresh pass. -/
lemma c5Tick_eq : c5Tick = c5After := by
  simp [c5Tick, losingTradeState, losingTrade, updateMarketPrices, tickTrade, tickedTrade,
    checkStopLossAndTakeProfit, optTruthy, optValD, updateTradePnL, updatedPnl,
    List.enum, List.enumFrom, initialMarketPrices, closeTrade, replaceFirst,
    c5After, c5Closed]
  norm_num

/-- Evaluation of the first C9 execution. -/
lemma c9First_eq : c9First = (Except.ok c9t1, c9st1) := by
  simp [c9First, executeSignal, validateSignalExecution, checkDailyLossLimit, jsOrQ,
    validatePosition, getOpenTrades, initialEngineState, initialAccount,
    defaultRiskSettings, smallBuySignal, calculateRiskLevels, updateTradePnL,
    updatedPnl, c9t1, c9st1]
  norm_num

/-- Evaluation of the duplicate C9 execution: it succeeds again. -/
lemma c9Second_eq : c9Second = (Except.ok c9t2, c9st2) := by
  have h : c9First.2 = c9st1 := by rw [c9First_eq]
  simp [c9Second, h, executeSignal, validateSignalExecution, checkDailyLossLimit, jsOrQ,
    validatePosition, getOpenTrades, defaultRiskSettings, smallBuySignal,
    calculateRiskLevels, updateTradePnL, updatedPnl, c9st1, c9t1, c9t2, c9st2,
    initialMarketPrices]
  norm_num

/-- Evaluation of the C3 witness execution. -/
lemma c3Open_eq : c3Open = (Except.ok c3t, c3st1) := by
  simp [c3Open, executeSignal, validateSignalExecution, checkDailyLossLimit, jsOrQ,
    validatePosition, getOpenTrades, initialEngineState, initialAccount,
    defaultRiskSettings, c3Sig, calculateRiskLevels, updateTradePnL, updatedPnl,
    c3t, c3st1]
  norm_num

/-- Evaluation of the C3 witness close. -/
lemma c3Close_eq : c3Close = (Except.ok c3tc, c3st2) := by
  have h : c3Open.2 = c3st1 := by rw [c3Open_eq]
  simp [c3Close, h, closeTrade, replaceFirst, updateTradePnL, updatedPnl,
    c3st1, c3t, c3tc, c3st2, initialMarketPrices]
  norm_num

end TradeCopier

namespace TradeCopier

/-- C1 counterexample: under the shipped defaults the cap is
`min(5000, 10000·25/100) = 2500 < 4450`, so executing the scenario's
BUY BTC 44500 × 0.1 signal scales the quantity down to 0.05 and leaves
balance 7775 — not the 5550 the claim states. -/
theorem c1_cex :
    c1Open.1.isOk = true ∧
    c1Open.1.toOption.map (fun t => t.quantity) = some (1/20) ∧
    c1Open.2.account.balance = 7775 ∧
    ¬ c1Open.2.account.balance = 5550 := by
  rw [c1Open_eq]
  refine ⟨rfl, ?_, ?_, ?_⟩ <;> norm_num [c1st1, c1t1, Except.toOption]

/-- C1 as amended: with the default risk settings the 4450-notional signal
is adjusted to quantity 0.05 (notional 2225 ≤ cap 2500); the trade opens
and balance becomes 7775; a tick quoting BTC at 46000 makes its pnl
`(46000−44500)·0.05 = 75`; closing at 46000 settles the balance to 10075;
total P&L over all trades is 75 and the win rate over closed trades
is 100%. -/
theorem c1_amended_scenario :
    c1Open.1.toOption.map (fun t => (t.status, t.quantity)) = some (.opened, 1/20) ∧
    c1Open.2.account.balance = 7775 ∧
    c1Tick.trades.map (fun t => (t.status, t.pnl)) = [(.opened, 75)] ∧
    c1Close.1.toOption.map (fun t => (t.status, t.pnl)) = some (.closed, 75) ∧
    c1Close.2.account.balance = 10075 ∧
    getTotalPnL c1Close.2 = 75 ∧
    getWinRate c1Close.2 = 100 := by
  rw [c1Open_eq, c1Tick_eq, c1Close_eq]
  refine ⟨?_, ?_, ?_, ?_, ?_, ?_, ?_⟩ <;>
    norm_num [c1st1, c1t1, c1st2, c1t2, c1st3, c1t3, Except.toOption,
      getTotalPnL, getWinRate, getClosedTrades]

/-- C2 counterexample: an account that has exhausted the daily-loss limit
is rejected for that reason even though its notional exceeds the cap and
the scaled quantity (0.05) does not round down to zero — refuting
"it rejects exactly when the scaled quantity rounds down to zero". -/
theorem c2_cex :
    (validateSignalExecution defaultRiskSettings buyBtcSignal dailyLossAccount [] 0).1 =
      .reject .dailyLossLimit ∧
    min defaultRiskSettings.maxPositionSize
        (dailyLossAccount.balance * (defaultRiskSettings.riskPerTrade / 100)) <
      buyBtcSignal.price * buyBtcSignal.quantity ∧
    ((⌊min defaultRiskSettings.maxPositionSize
          (dailyLossAccount.balance * (defaultRiskSettings.riskPerTrade / 100)) /
        buyBtcSignal.price * 100⌋ : ℤ) : ℚ) / 100 = 1/20 := by
  refine ⟨?_, ?_, ?_⟩
  · simp [validateSignalExecution, checkDailyLossLimit, jsOrQ,
      defaultRiskSettings, dailyLossAccount]
  · norm_num [defaultRiskSettings, dailyLossAccount, buyBtcSignal]
  · have : min defaultRiskSettings.maxPositionSize
        (dailyLossAccount.balance * (defaultRiskSettings.riskPerTrade / 100)) = 2500 := by
      norm_num [defaultRiskSettings, dailyLossAccount]
    rw [this]
    norm_num [buyBtcSignal, floor_cap_btc]

/-- C5: the refresh pass auto-closes `losingTrade` at pnl −75, yet the
account's daily-loss-used counter is unchanged (500 before and after):
no `updateDailyLoss`/recordLoss call exists on that path, although
invoking `updateDailyLoss` there would have produced 575 as the claim
describes. -/
theorem c5_daily_loss_not_recorded :
    losingTradeState.account.dailyLossUsed = some 500 ∧
    c5Tick.trades.map (fun t => (t.status, t.pnl)) = [(.closed, -75)] ∧
    c5Tick.account.dailyLossUsed = some 500 ∧
    (updateDailyLoss c5Tick.account (-75) 0).dailyLossUsed = some 575 := by
  rw [c5Tick_eq]
  refine ⟨rfl, ?_, rfl, ?_⟩
  · norm_num [c5After, c5Closed, losingTradeState, losingTrade]
  · simp [c5After, updateDailyLoss, jsOrQ]
    norm_num

/-- C7 counterexample: the documented malformed-price message is not
rejected — pattern 1 matches the leading digits and `parseSignal` returns
a BUY BTC signal at price 45. -/
theorem c7_cex :
    (parseSignal "BUY BTC $45,000.00.50" "chan").map
        (fun s => (s.symbol, s.action, s.price)) =
      some ("BTC", TradeAction.BUY, 45) := by decide

/-- C7 as amended: `parseSignal` (a total function, so it never raises)
yields no signal for the missing-symbol, missing-action, missing-price and
unsupported-symbol examples, but the malformed-price example
`BUY BTC $45,000.00.50` is parsed as a BUY BTC signal at the coerced
price 45. -/
theorem c7_amended_parser_rejection :
    parseSignal "BUY @ $45000" "chan" = none ∧
    parseSignal "BTC $45000" "chan" = none ∧
    parseSignal "BUY BTC" "chan" = none ∧
    parseSignal "BUY ETH $3000" "chan" = none ∧
    (parseSignal "BUY BTC $45,000.00.50" "chan").map
        (fun s => (s.symbol, s.action, s.price)) =
      some ("BTC", TradeAction.BUY, 45) := by
  refine ⟨?_, ?_, ?_, ?_, ?_⟩ <;> decide

/-- C8 counterexample: `getTrades` returns a fresh array over the same
trade objects, so a caller writing the `pnl` field of a returned trade
changes the engine's internal trade view. -/
theorem c8_cex :
    0 ∈ getTradesShallowCopy heapExample ∧
    engineTradeView (callerWritePnl heapExample 0 999) ≠ engineTradeView heapExample := by
  constructor
  · decide
  · simp [heapExample, callerWritePnl, engineTradeView, c6Trade]

/-- C9 counterexample: executing the same signal (id "sig9") twice from
the initial state succeeds both times — the engine books a second trade
for the same signal id and debits the balance again. -/
theorem c9_cex :
    c9First.1.isOk = true ∧
    c9Second.1.isOk = true ∧
    c9Second.2.trades.map (fun t => t.signalId) = ["sig9", "sig9"] ∧
    c9First.2.account.balance = 9555 ∧
    c9Second.2.account.balance = 9110 := by
  rw [c9First_eq, c9Second_eq]
  refine ⟨rfl, rfl, ?_, rfl, rfl⟩
  simp [c9st2, c9st1, c9t1, c9t2]

end TradeCopier

namespace TradeCopier

lemma validatePosition_snd (rs : RiskSettings) (sig : TradingSignal) (a : TradingAccount) :
    (validatePosition rs sig a).2 = a := by
  unfold validatePosition
  dsimp only
  split
  · split <;> rfl
  · split <;> rfl

lemma checkDailyLossLimit_balance (rs : RiskSettings) (acct : TradingAccount) (today : ℕ) :
    ((checkDailyLossLimit rs acct today).2).balance = acct.balance := by
  unfold checkDailyLossLimit
  dsimp only
  split <;> split <;> rfl

lemma validateSignalExecution_balance (rs : RiskSettings) (sig : TradingSignal)
    (acct : TradingAccount) (ot : List PaperTrade) (today : ℕ) :
    ((validateSignalExecution rs sig acct ot today).2).balance = acct.balance := by
  have h1 := checkDailyLossLimit_balance rs acct today
  unfold validateSignalExecution
  dsimp only
  split
  · split
    next acct1 heq =>
      rw [heq] at h1; exact h1
    next acct1 heq =>
      split
      · rw [heq] at h1; exact h1
      · rw [validatePosition_snd]; rw [heq] at h1; exact h1
  · split
    · rfl
    · rw [validatePosition_snd]

end TradeCopier

namespace TradeCopier

lemma executeSignal_ok {rs : RiskSettings} {st : EngineState} {sig : TradingSignal}
    {today : ℕ} {quote : ℚ} {newId : String} {now : ℚ} {tr : PaperTrade} {st1 : EngineState}
    (h : executeSignal rs st sig today quote newId now = (.ok tr, st1)) :
    tr.signalId = sig.id ∧ tr.action = sig.action ∧ tr.entryPrice = sig.price ∧
    tr.status = .opened ∧ st1.trades = st.trades ++ [tr] ∧
    st1.marketPrices = st.marketPrices ∧
    st1.account.balance =
      (if sig.action = .BUY then st.account.balance - sig.price * tr.quantity
       else st.account.balance + sig.price * tr.quantity) := by
  rcases hv : validateSignalExecution rs sig st.account (getOpenTrades st) today with ⟨v, acct1⟩
  have hbal : acct1.balance = st.account.balance := by
    have hx := validateSignalExecution_balance rs sig st.account (getOpenTrades st) today
    rw [hv] at hx; exact hx
  unfold executeSignal at h
  rw [hv] at h
  cases v with
  | reject r => simp at h
  | allow adj =>
    dsimp only at h
    split at h
    · simp at h
    · simp only [Prod.mk.injEq, Except.ok.injEq] at h
      obtain ⟨h1, h2⟩ := h
      subst h1
      subst h2
      refine ⟨rfl, rfl, rfl, rfl, rfl, rfl, ?_⟩
      simp [updateTradePnL, hbal]

end TradeCopier

namespace TradeCopier

lemma updatedPnl_some {t : PaperTrade} {cp : ℚ} (hcp : t.currentPrice = some cp)
    (hne : cp ≠ 0) :
    updatedPnl t = (if t.action = .BUY then (cp - t.entryPrice) * t.quantity
                    else (t.entryPrice - cp) * t.quantity) := by
  unfold updatedPnl
  rw [hcp]
  dsimp only
  rw [if_neg hne]

lemma closeTrade_ok {st : EngineState} {tid : String} {quote now : ℚ}
    {tr1 : PaperTrade} {st2 : EngineState}
    (h : closeTrade st tid quote now = (.ok tr1, st2)) :
    ∃ t, st.trades.find? (fun u => decide (u.id = tid)) = some t ∧
      t.status ≠ .closed ∧
      tr1 = updateTradePnL
        { t with status := .closed, closedAt := some now, currentPrice := some quote } ∧
      st2.account.balance =
        (if t.action = .BUY then st.account.balance + quote * t.quantity
         else st.account.balance - quote * t.quantity) ∧
      st2.marketPrices = st.marketPrices ∧
      st2.trades = replaceFirst (fun u => decide (u.id = tid)) tr1 st.trades := by
  unfold closeTrade at h
  rcases hf : st.trades.find? (fun u => decide (u.id = tid)) with _ | t
  · rw [hf] at h; simp at h
  · rw [hf] at h
    dsimp only at h
    split at h
    · simp at h
    · simp only [Prod.mk.injEq, Except.ok.injEq] at h
      obtain ⟨h1, h2⟩ := h
      subst h1
      subst h2
      next hstat =>
      exact ⟨t, hf, hstat, rfl, rfl, rfl, rfl⟩

end TradeCopier

namespace TradeCopier

/-- C3: ledger symmetry.  For a trade opened by `executeSignal` with entry
price p and (possibly adjusted) quantity q and later closed by `closeTrade`
at a nonzero quoted price q1 (the close finding a trade with the same
action/entry/quantity), a BUY decreases the balance by p·q on open and
increases it by q1·q on close (mirrored signs for SELL), and the net
balance change over the open/close pair equals the stored `pnl` of the
closed trade exactly. -/
theorem c3_ledger_symmetry
    (rs : RiskSettings) (st0 : EngineState) (sig : TradingSignal) (today : ℕ)
    (q0 : ℚ) (newId : String) (n0 : ℚ) (tr : PaperTrade) (st1 : EngineState)
    (st2 : EngineState) (u : PaperTrade) (q1 n1 : ℚ) (tr1 : PaperTrade) (st3 : EngineState)
    (hexec : executeSignal rs st0 sig today q0 newId n0 = (.ok tr, st1))
    (hfind : st2.trades.find? (fun x => decide (x.id = tr.id)) = some u)
    (hact : u.action = tr.action) (hentry : u.entryPrice = tr.entryPrice)
    (hqty : u.quantity = tr.quantity) (hq1 : q1 ≠ 0)
    (hclose : closeTrade st2 tr.id q1 n1 = (.ok tr1, st3)) :
    (tr.action = .BUY →
       st1.account.balance = st0.account.balance - tr.entryPrice * tr.quantity ∧
       st3.account.balance = st2.account.balance + q1 * tr.quantity ∧
       (st1.account.balance - st0.account.balance) +
         (st3.account.balance - st2.account.balance) = tr1.pnl) ∧
    (tr.action = .SELL →
       st1.account.balance = st0.account.balance + tr.entryPrice * tr.quantity ∧
       st3.account.balance = st2.account.balance - q1 * tr.quantity ∧
       (st1.account.balance - st0.account.balance) +
         (st3.account.balance - st2.account.balance) = tr1.pnl) := by
  obtain ⟨-, hactS, hentryS, -, -, -, hbal1⟩ := executeSignal_ok hexec
  obtain ⟨t, hft, -, htr1, hbal3, -, -⟩ := closeTrade_ok hclose
  rw [hfind] at hft
  injection hft with hft
  subst hft
  have hpnl : tr1.pnl =
      (if u.action = .BUY then (q1 - u.entryPrice) * u.quantity
       else (u.entryPrice - q1) * u.quantity) := by
    rw [htr1]
    show (updateTradePnL _).pnl = _
    have := @updatedPnl_some
      { u with status := .closed, closedAt := some n1, currentPrice := some q1 }
      q1 rfl hq1
    simp only [updateTradePnL]
    rw [this]
  constructor <;> intro hA
  · have hS : sig.action = .BUY := by rw [← hactS, hA]
    have hU : u.action = .BUY := by rw [hact, hA]
    rw [if_pos hS] at hbal1
    rw [if_pos hU] at hbal3
    rw [if_pos hU] at hpnl
    refine ⟨by rw [hbal1, hentryS], by rw [hbal3, hqty], ?_⟩
    rw [hbal1, hbal3, hpnl, hqty, hentry, hentryS]
    ring
  · have hS : ¬ sig.action = .BUY := by rw [← hactS, hA]; intro hx; cases hx
    have hU : ¬ u.action = .BUY := by rw [hact, hA]; intro hx; cases hx
    rw [if_neg hS] at hbal1
    rw [if_neg hU] at hbal3
    rw [if_neg hU] at hpnl
    refine ⟨by rw [hbal1, hentryS], by rw [hbal3, hqty], ?_⟩
    rw [hbal1, hbal3, hpnl, hqty, hentry, hentryS]
    ring

end TradeCopier

namespace TradeCopier

theorem c3_ledger_symmetry_witness :
    c3st1.account.balance = initialEngineState.account.balance - c3t.entryPrice * c3t.quantity ∧
    c3st2.account.balance = c3st1.account.balance + 110 * c3t.quantity ∧
    (c3st1.account.balance - initialEngineState.account.balance) +
      (c3st2.account.balance - c3st1.account.balance) = c3tc.pnl := by
  have hclose : closeTrade c3st1 c3t.id 110 7 = (.ok c3tc, c3st2) := by
    have h := c3Close_eq
    have hx : c3Open.2 = c3st1 := by rw [c3Open_eq]
    unfold c3Close at h
    rw [hx] at h
    exact h
  exact (c3_ledger_symmetry defaultRiskSettings initialEngineState c3Sig 0 100 "T3" 0
    c3t c3st1 c3st1 c3t 110 7 c3tc c3st2 c3Open_eq (by decide) rfl rfl rfl
    (by norm_num) hclose).1 rfl

/-- C4: error atomicity.  A risk-rejected `executeSignal` raises with the
validator's rejection reason and leaves the trade list, the quote table
and the account balance unchanged (the account only takes the validator's
daily-loss day-roll fields); `closeTrade` raises exactly when no trade
with the id exists or the found trade is already closed, and then mutates
no state. -/
theorem c4_error_atomicity :
    (∀ (rs : RiskSettings) (st : EngineState) (sig : TradingSignal) (today : ℕ)
       (quote : ℚ) (newId : String) (now : ℚ) (r : RejectReason) (acct1 : TradingAccount),
       validateSignalExecution rs sig st.account (getOpenTrades st) today =
         (.reject r, acct1) →
       executeSignal rs st sig today quote newId now =
         (.error (.riskRejected r), { st with account := acct1 }) ∧
       acct1.balance = st.account.balance) ∧
    (∀ (st : EngineState) (tid : String) (quote now : ℚ),
       ((closeTrade st tid quote now).1.isOk = false ↔
         (match st.trades.find? (fun u => decide (u.id = tid)) with
          | none => True
          | some t => t.status = .closed)) ∧
       ((closeTrade st tid quote now).1.isOk = false →
         (closeTrade st tid quote now).2 = st)) := by
  constructor
  · intro rs st sig today quote newId now r acct1 hv
    constructor
    · unfold executeSignal
      rw [hv]
    · have hx := validateSignalExecution_balance rs sig st.account (getOpenTrades st) today
      rw [hv] at hx
      exact hx
  · intro st tid quote now
    unfold closeTrade
    rcases hf : st.trades.find? (fun u => decide (u.id = tid)) with _ | t <;> rw [hf]
    · exact ⟨by simp [Except.isOk, Except.toBool], fun _ => rfl⟩
    · dsimp only
      by_cases ht : t.status = .closed
      · rw [if_pos ht]
        exact ⟨by simp [Except.isOk, Except.toBool, ht], fun _ => rfl⟩
      · rw [if_neg ht]
        refine ⟨by simp [Except.isOk, Except.toBool, ht], ?_⟩
        intro hx
        simp [Except.isOk, Except.toBool] at hx

theorem c4_error_atomicity_witness :
    executeSignal defaultRiskSettings rejState buyBtcSignal 0 45000 "T" 0 =
      (.error (.riskRejected .dailyLossLimit), { rejState with account := dailyLossAccount }) ∧
    (closeTrade initialEngineState "nope" 1 0).2 = initialEngineState := by
  constructor
  · exact (c4_error_atomicity.1 defaultRiskSettings rejState buyBtcSignal 0 45000 "T" 0
      .dailyLossLimit dailyLossAccount (by decide)).1
  · exact (c4_error_atomicity.2 initialEngineState "nope" 1 0).2 (by decide)

/-- C9 as amended: `executeSignal` applies no per-signal idempotency
guard — whenever a second call with the same signal succeeds, it appends a
second trade carrying the same `signalId` and moves the balance by the
notional again. -/
theorem c9_amended_no_guard
    (rs : RiskSettings) (st0 st1 st2 : EngineState) (sig : TradingSignal) (today : ℕ)
    (q1 q2 : ℚ) (id1 id2 : String) (n1 n2 : ℚ) (t1 t2 : PaperTrade)
    (h1 : executeSignal rs st0 sig today q1 id1 n1 = (.ok t1, st1))
    (h2 : executeSignal rs st1 sig today q2 id2 n2 = (.ok t2, st2)) :
    st2.trades = st1.trades ++ [t2] ∧ t1.signalId = sig.id ∧ t2.signalId = sig.id ∧
    st2.account.balance =
      (if sig.action = .BUY then st1.account.balance - sig.price * t2.quantity
       else st1.account.balance + sig.price * t2.quantity) := by
  obtain ⟨ha, -, -, -, -, -, -⟩ := executeSignal_ok h1
  obtain ⟨hb, -, -, -, htr, -, hbal⟩ := executeSignal_ok h2
  exact ⟨htr, ha, hb, hbal⟩

theorem c9_amended_no_guard_witness :
    c9st2.trades = c9st1.trades ++ [c9t2] ∧ c9t1.signalId = smallBuySignal.id ∧
    c9t2.signalId = smallBuySignal.id ∧
    c9st2.account.balance =
      (if smallBuySignal.action = .BUY then
         c9st1.account.balance - smallBuySignal.price * c9t2.quantity
       else c9st1.account.balance + smallBuySignal.price * c9t2.quantity) := by
  have h2 : executeSignal defaultRiskSettings c9st1 smallBuySignal 0 45000 "T2" 0 =
      (.ok c9t2, c9st2) := by
    have h := c9Second_eq
    have hx : c9First.2 = c9st1 := by rw [c9First_eq]
    unfold c9Second at h
    rw [hx] at h
    exact h
  exact c9_amended_no_guard defaultRiskSettings initialEngineState c9st1 c9st2
    smallBuySignal 0 45000 45000 "T1" "T2" 0 0 c9t1 c9t2 c9First_eq h2

end TradeCopier

namespace TradeCopier

lemma validatePosition_c2 (rs : RiskSettings) (sig : TradingSignal) (a : TradingAccount)
    (cap adj : ℚ)
    (hcap : cap = min rs.maxPositionSize (a.balance * (rs.riskPerTrade / 100)))
    (hadj : adj = ((⌊cap / sig.price * 100⌋ : ℤ) : ℚ) / 100)
    (hp : 0 < sig.price) (hover : cap < sig.price * sig.quantity) :
    ((validatePosition rs sig a).1 = .reject .positionTooLarge ↔ adj ≤ 0) ∧
    (0 < adj →
      (validatePosition rs sig a).1 = .allow (some adj) ∧ sig.price * adj ≤ cap) := by
  unfold validatePosition
  dsimp only
  rw [← hcap, if_pos hover, ← hadj]
  constructor
  · by_cases hle : adj ≤ 0
    · rw [if_pos hle]; simp [hle]
    · rw [if_neg hle]; simp [hle]
  · intro hpos
    rw [if_neg (not_le.2 hpos)]
    refine ⟨rfl, ?_⟩
    have h1 : ((⌊cap / sig.price * 100⌋ : ℤ) : ℚ) ≤ cap / sig.price * 100 := Int.floor_le _
    have h2 : adj ≤ cap / sig.price := by
      rw [hadj]; linarith
    calc sig.price * adj ≤ sig.price * (cap / sig.price) :=
          mul_le_mul_of_nonneg_left h2 hp.le
      _ = cap := by field_simp

/-- C2 as amended: for a signal with positive price, provided the
daily-loss and max-open-positions gates pass, when the signal's notional
exceeds `min(maxPositionSize, balance·riskPerTrade/100)` the validator
rejects exactly when the scaled quantity `⌊cap/price·100⌋/100` rounds down
to ≤ 0, and otherwise allows with that `adjustedQuantity`, whose notional
never exceeds the cap. -/
theorem c2_amended_cap
    (rs : RiskSettings) (sig : TradingSignal) (acct : TradingAccount)
    (ot : List PaperTrade) (today : ℕ) (cap adj : ℚ)
    (hcap : cap = min rs.maxPositionSize (acct.balance * (rs.riskPerTrade / 100)))
    (hadj : adj = ((⌊cap / sig.price * 100⌋ : ℤ) : ℚ) / 100)
    (hdl : rs.enableDailyLossLimit = true → (checkDailyLossLimit rs acct today).1 = true)
    (hop : ot.length < rs.maxOpenPositions)
    (hp : 0 < sig.price)
    (hover : cap < sig.price * sig.quantity) :
    ((validateSignalExecution rs sig acct ot today).1 = .reject .positionTooLarge ↔ adj ≤ 0) ∧
    (0 < adj →
      (validateSignalExecution rs sig acct ot today).1 = .allow (some adj) ∧
      sig.price * adj ≤ cap) := by
  unfold validateSignalExecution
  dsimp only
  cases he : rs.enableDailyLossLimit with
  | false =>
    rw [if_neg (by simp), if_neg (not_le.2 hop)]
    exact validatePosition_c2 rs sig acct cap adj hcap hadj hp hover
  | true =>
    rw [if_pos rfl]
    rcases hc : checkDailyLossLimit rs acct today with ⟨b, acct1⟩
    have hb : b = true := by
      have := hdl he
      rw [hc] at this
      exact this
    subst hb
    dsimp only
    rw [if_neg (not_le.2 hop)]
    have hbal : acct1.balance = acct.balance := by
      have := checkDailyLossLimit_balance rs acct today
      rw [hc] at this
      exact this
    exact validatePosition_c2 rs sig acct1 cap adj (by rw [hcap, hbal]) hadj hp hover

theorem c2_amended_cap_witness :
    (validateSignalExecution defaultRiskSettings buyBtcSignal freshAccount [] 0).1 =
      .allow (some (1/20)) ∧
    buyBtcSignal.price * (1/20) ≤ 2500 := by
  have h := (c2_amended_cap defaultRiskSettings buyBtcSignal freshAccount [] 0 2500 (1/20)
    (by norm_num [defaultRiskSettings, freshAccount])
    (by rw [show ((2500:ℚ) / buyBtcSignal.price * 100) = 500/89 by norm_num [buyBtcSignal]]
        norm_num [Int.floor_eq_iff])
    (fun _ => by decide)
    (by norm_num [defaultRiskSettings])
    (by norm_num [buyBtcSignal])
    (by norm_num [buyBtcSignal])).2 (by norm_num)
  exact h

end TradeCopier

namespace TradeCopier

lemma checkStop_true_iff (t : PaperTrade) (p : ℚ) :
    checkStopLossAndTakeProfit t p = true ↔
      ((t.action = .BUY ∧
         ((∃ v, t.stopLoss = some v ∧ v ≠ 0 ∧ p ≤ v) ∨
          (∃ v, t.takeProfit = some v ∧ v ≠ 0 ∧ v ≤ p))) ∨
       (t.action = .SELL ∧
         ((∃ v, t.stopLoss = some v ∧ v ≠ 0 ∧ v ≤ p) ∨
          (∃ v, t.takeProfit = some v ∧ v ≠ 0 ∧ p ≤ v)))) := by
  rcases ht : t.action <;> rcases hsl : t.stopLoss with _ | v <;>
    rcases htp : t.takeProfit with _ | w <;>
    simp [checkStopLossAndTakeProfit, optTruthy, optValD, ht, hsl, htp] <;>
    by_cases hv : v = 0 <;> by_cases hw : w = 0 <;> simp [hv, hw]

lemma closeTrade_singleton (st : EngineState) (x : PaperTrade) (q now : ℚ)
    (htr : st.trades = [x]) (hx : ¬ x.status = .closed) :
    (closeTrade st x.id q now).2.trades =
      [updateTradePnL { x with status := .closed, closedAt := some now,
                               currentPrice := some q }] := by
  unfold closeTrade
  rw [htr]
  simp [replaceFirst, hx]

lemma tickedTrade_check (now q1 p : ℚ) (t : PaperTrade) :
    checkStopLossAndTakeProfit (tickedTrade now q1 t) p =
      checkStopLossAndTakeProfit t p := rfl

lemma tickTrade_singleton (now q1 q2 : ℚ) (st : EngineState) (t : PaperTrade)
    (htr : st.trades = [t]) (hst : ¬ t.status = .closed) :
    ∃ u, (tickTrade now q1 q2 0 st).trades = [u] ∧
      (u.status = .closed ↔ checkStopLossAndTakeProfit t q1 = true) := by
  have h0 : st.trades[0]? = some t := by rw [htr]; rfl
  unfold tickTrade
  rw [h0]
  dsimp only
  have hset : st.trades.set 0 (tickedTrade now q1 t) = [tickedTrade now q1 t] := by
    rw [htr]; rfl
  rw [hset]
  by_cases hc : checkStopLossAndTakeProfit (tickedTrade now q1 t) q1 = true
  · rw [if_pos hc]
    have hstat : ¬ (tickedTrade now q1 t).status = .closed := hst
    have hcl := closeTrade_singleton { st with trades := [tickedTrade now q1 t] }
      (tickedTrade now q1 t) q2 now rfl hstat
    rw [tickedTrade_check] at hc
    exact ⟨_, hcl, ⟨fun _ => hc, fun _ => rfl⟩⟩
  · rw [if_neg hc]
    refine ⟨tickedTrade now q1 t, rfl, ?_⟩
    rw [tickedTrade_check] at hc
    have hts : (tickedTrade now q1 t).status = t.status := rfl
    rw [hts]
    constructor
    · intro hx; exact absurd hx hst
    · intro hx; exact absurd hx hc

lemma updateMarketPrices_singleton (st : EngineState) (t : PaperTrade)
    (mpF : ℕ → ℚ) (tq : ℕ → ℚ × ℚ) (now : ℚ)
    (htr : st.trades = [t]) (hst : t.status = .opened) :
    ∃ u, (updateMarketPrices st mpF tq now).trades = [u] ∧
      (u.status = .closed ↔ checkStopLossAndTakeProfit t (tq 0).1 = true) := by
  unfold updateMarketPrices
  dsimp only
  have hidx : (List.range st.trades.length).filter (fun i =>
      match st.trades[i]? with
      | some t => decide (t.status = .opened)
      | none => false) = [0] := by
    rw [htr]
    simp [hst, List.range_succ]
  rw [hidx]
  have henum : ([0] : List ℕ).enum = [(0, 0)] := rfl
  rw [henum]
  simp only [List.foldl]
  exact tickTrade_singleton now (tq 0).1 (tq 0).2
    { st with marketPrices := st.marketPrices.mapIdx fun i p =>
        { p with price := p.price * (1 + mpF i) } } t htr (by rw [hst]; intro hx; cases hx)

/-- C6: for every trade and quoted current price, `checkStopLossAndTakeProfit`
is true for a BUY exactly when a (truthy) stop-loss has price ≤ stopLoss or
a (truthy) take-profit has price ≥ takeProfit, with mirrored comparisons
for SELL; it is false when the trade carries neither level; consequently a
refresh tick closes an open BUY trade exactly when its quote reaches one of
the trade's levels. -/
theorem c6_exit_conditions :
    (∀ (t : PaperTrade) (p : ℚ),
       checkStopLossAndTakeProfit t p = true ↔
         ((t.action = .BUY ∧
            ((∃ v, t.stopLoss = some v ∧ v ≠ 0 ∧ p ≤ v) ∨
             (∃ v, t.takeProfit = some v ∧ v ≠ 0 ∧ v ≤ p))) ∨
          (t.action = .SELL ∧
            ((∃ v, t.stopLoss = some v ∧ v ≠ 0 ∧ v ≤ p) ∨
             (∃ v, t.takeProfit = some v ∧ v ≠ 0 ∧ p ≤ v))))) ∧
    (∀ (t : PaperTrade) (p : ℚ), t.stopLoss = none → t.takeProfit = none →
       checkStopLossAndTakeProfit t p = false) ∧
    (∀ (st : EngineState) (t : PaperTrade) (mpF : ℕ → ℚ) (tq : ℕ → ℚ × ℚ) (now : ℚ),
       st.trades = [t] → t.status = .opened → t.action = .BUY →
       ∃ u, (updateMarketPrices st mpF tq now).trades = [u] ∧
         (u.status = .closed ↔
           ((∃ v, t.stopLoss = some v ∧ v ≠ 0 ∧ (tq 0).1 ≤ v) ∨
            (∃ v, t.takeProfit = some v ∧ v ≠ 0 ∧ v ≤ (tq 0).1)))) := by
  refine ⟨checkStop_true_iff, ?_, ?_⟩
  · intro t p hsl htp
    rcases Bool.eq_false_or_eq_true (checkStopLossAndTakeProfit t p) with h | h
    · exfalso
      have hx := (checkStop_true_iff t p).1 h
      simp [hsl, htp] at hx
    · exact h
  · intro st t mpF tq now htr hst hact
    obtain ⟨u, hu, hiff⟩ := updateMarketPrices_singleton st t mpF tq now htr hst
    refine ⟨u, hu, ?_⟩
    rw [hiff, checkStop_true_iff]
    simp [hact]

theorem c6_exit_conditions_witness :
    ∃ u, (updateMarketPrices c6State (fun _ => 0) (fun _ => ((97:ℚ), (97:ℚ))) 0).trades = [u] ∧
      (u.status = .closed ↔
        ((∃ v, c6Trade.stopLoss = some v ∧ v ≠ 0 ∧ (97:ℚ) ≤ v) ∨
         (∃ v, c6Trade.takeProfit = some v ∧ v ≠ 0 ∧ v ≤ (97:ℚ)))) :=
  c6_exit_conditions.2.2 c6State c6Trade (fun _ => 0) (fun _ => (97, 97)) 0 rfl rfl rfl

end TradeCopier

namespace TradeCopier

lemma buildSignal_action {text ch sym : String} {po : Option ℚ} {s : ParsedSignal}
    (h : buildSignal text ch sym po = some s) : determineAction text = some s.action := by
  unfold buildSignal at h
  rcases hda : determineAction text with _ | act <;> rw [hda] at h
  · rcases po with _ | pv <;> simp at h
  · rcases po with _ | pv
    · simp at h
    · dsimp only at h
      split at h
      · injection h with h1
        rw [← h1]
      · cases h

lemma parseSignal_action {text ch : String} {s : ParsedSignal}
    (h : parseSignal text ch = some s) : determineAction text = some s.action := by
  unfold parseSignal at h
  dsimp only at h
  split at h
  next s1 heq =>
    injection h with h1
    subst h1
    split at heq
    · exact buildSignal_action heq
    · cases heq
  next heq =>
    split at h
    next s1 heq1 =>
      injection h with h1
      subst h1
      split at heq1
      · exact buildSignal_action heq1
      · cases heq1
    next =>
      split at h
      · exact buildSignal_action h
      · cases h

end TradeCopier

namespace TradeCopier

/-- C10: direction vocabulary precedence.  Every message `parseSignal`
accepts gets its action from `determineAction` over the whole lowercased
text: a bullish keyword forces BUY even in the presence of bearish
vocabulary, and SELL occurs only when no bullish keyword is present and
some bearish keyword is; hence the direction can contradict the ACTION
word matched by the price/symbol grammar, as the SELL-grammar message
with a trailing "bullish" shows. -/
theorem c10_direction_precedence :
    (∀ (text channelId : String) (s : ParsedSignal),
       parseSignal text channelId = some s →
       ((buyKeywords.any fun k => containsSub k.toList (lowerOf text)) = true →
          s.action = .BUY) ∧
       (s.action = .SELL →
          (buyKeywords.any fun k => containsSub k.toList (lowerOf text)) = false ∧
          (sellKeywords.any fun k => containsSub k.toList (lowerOf text)) = true)) ∧
    (parseSignal "SELL BTC $45000 bullish" "chan").map (fun s => s.action) =
      some TradeAction.BUY := by
  constructor
  · intro text ch s h
    have hda := parseSignal_action h
    unfold determineAction at hda
    constructor
    · intro hbuy
      rw [if_pos hbuy] at hda
      injection hda with hda
      exact hda.symm
    · intro hsell
      by_cases hbuy : (buyKeywords.any fun k => containsSub k.toList (lowerOf text)) = true
      · rw [if_pos hbuy] at hda
        injection hda with hda
        rw [hsell] at hda
        cases hda
      · have hbf : (buyKeywords.any fun k => containsSub k.toList (lowerOf text)) = false :=
          Bool.not_eq_true _ ▸ Bool.of_not_eq_true hbuy
        rw [if_neg hbuy] at hda
        by_cases hs2 : (sellKeywords.any fun k => containsSub k.toList (lowerOf text)) = true
        · exact ⟨hbf, hs2⟩
        · rw [if_neg hs2] at hda
          cases hda
  · decide

theorem c10_direction_precedence_witness :
    (parseSignal "BUY BTC $45000" "chan").map (fun s => s.action) =
      some TradeAction.BUY := by
  rcases hp : parseSignal "BUY BTC $45000" "chan" with _ | s
  · exfalso
    have hx : (parseSignal "BUY BTC $45000" "chan").isSome = true := by decide
    rw [hp] at hx
    cases hx
  · have hb := (c10_direction_precedence.1 "BUY BTC $45000" "chan" s hp).1 (by decide)
    simp [hb]

end TradeCopier

namespace TradeCopier

/-- C8 as amended: the query surface returns fresh containers — the
returned array itself and the spread-copied account snapshot are isolated
from the engine — but the trade objects inside the returned array are the
engine's own, so writing a field of a returned trade object changes the
engine's internal trade view. -/
theorem c8_amended_query_isolation
    (s : HeapState) (r : ℕ) (v : ℚ)
    (hr : r ∈ getTradesShallowCopy s) :
    (callerWritePnl s r v).engineTrades = s.engineTrades ∧
    getAccountCopy (callerWritePnl s r v) = getAccountCopy s ∧
    (∀ t, s.tradeObjs[r]? = some t → t.pnl ≠ v →
      engineTradeView (callerWritePnl s r v) ≠ engineTradeView s) := by
  refine ⟨?_, ?_, ?_⟩
  · unfold callerWritePnl
    rcases h : s.tradeObjs[r]? with _ | t <;> rfl
  · unfold callerWritePnl getAccountCopy
    rcases h : s.tradeObjs[r]? with _ | t <;> rfl
  · intro t ht hpnl
    obtain ⟨i, hi⟩ := List.mem_iff_getElem?.1 hr
    unfold callerWritePnl
    rw [ht]
    unfold engineTradeView
    dsimp only
    intro hEq
    have h1 := congrArg (fun l => l[i]?) hEq
    simp only [List.getElem?_map] at h1
    have hi2 : s.engineTrades[i]? = some r := hi
    rw [hi2] at h1
    simp only [Option.map_some', Option.map_some] at h1
    rw [List.getElem?_set_self'] at h1
    rw [ht] at h1
    simp only [Function.const_apply, Option.map_some', Option.map_some] at h1
    injection h1 with h1x
    injection h1x with h1y
    have h2 := congrArg PaperTrade.pnl h1y
    simp only [] at h2
    exact hpnl h2.symm

end TradeCopier

namespace TradeCopier

theorem c8_amended_query_isolation_witness :
    (callerWritePnl heapExample 0 999).engineTrades = heapExample.engineTrades ∧
    getAccountCopy (callerWritePnl heapExample 0 999) = getAccountCopy heapExample ∧
    engineTradeView (callerWritePnl heapExample 0 999) ≠ engineTradeView heapExample := by
  obtain ⟨h1, h2, h3⟩ := c8_amended_query_isolation heapExample 0 999 (by decide)
  exact ⟨h1, h2, h3 c6Trade rfl (by decide)⟩

end TradeCopier
